import Mathlib

/-
Verification of the kiv in-memory tabular store (package `engine`).

The Go source (engine/engine.go) is embedded shallowly below:
Go maps become association lists with unique keys, Go slices become
Lean lists, the dynamically typed `interface` column values become the
inductive `Value`, and Go panics (out-of-range slice indexing) become
explicit outcome constructors.  Struct declarations (Query, Row, Table,
NewDatabase, Operation, Transaction) live in a file absent from src/;
their fields are modelled from the spec (section 3) and from how
engine.go uses them.
-/

set_option maxRecDepth 4000

namespace Engine

/-- Modelled from the spec: a dynamically typed column value
(Go `interface` value).  The constructors cover the value kinds the
engine manipulates: strings (row identifiers), integers and booleans. -/
inductive Value where
  | str (s : String)
  | int (n : Int)
  | boolean (b : Bool)
deriving DecidableEq

/-- The Go type assertion `v.(string)`: yields the string when the
dynamic value is a string, and fails otherwise. -/
def Value.asString? : Value → Option String
  | .str s => some s
  | _ => none

/-- Lookup in a Go map modelled as an association list: the value of
the first entry with the given key. -/
def mapGet? {α : Type} : List (String × α) → String → Option α
  | [], _ => none
  | (k, v) :: rest, key => if k = key then some v else mapGet? rest key

/-- Assignment `m[key] = v` on a Go map modelled as an association
list: replaces the existing entry or appends a new one. -/
def mapSet {α : Type} : List (String × α) → String → α → List (String × α)
  | [], key, v => [(key, v)]
  | (k, w) :: rest, key, v =>
      if k = key then (k, v) :: rest else (k, w) :: mapSet rest key v

/-- Deletion `delete(m, key)` on a Go map modelled as an association
list. -/
def mapDelete {α : Type} (m : List (String × α)) (key : String) : List (String × α) :=
  m.filter (fun p => !(p.1 == key))

/-- Modelled from the spec: a row is a mapping from column name to
value (Go `Columns map[string]interface` field). -/
structure Row where
  Columns : List (String × Value)
deriving DecidableEq

/-- Modelled from the spec: the advisory column data type (one of
Int/Float/String/DateTime/Bool). -/
inductive ColumnType where
  | int
  | float
  | string
  | dateTime
  | bool
deriving DecidableEq

/-- Modelled from the spec: column metadata (name, declared type,
nullability flag); advisory only, never enforced. -/
structure Column where
  Name : String
  DataType : ColumnType
  Nullable : Bool
deriving DecidableEq

/-- Modelled from the spec: index metadata (name plus covered column
names); stored but never consulted. -/
structure Index where
  Name : String
  ColumnNames : List String
deriving DecidableEq

/-- Modelled from the spec: a table has a name, column and index
metadata, and an insertion-ordered sequence of rows. -/
structure Table where
  Name : String
  Columns : List Column
  Indexes : List Index
  Rows : List Row
deriving DecidableEq

/-- Modelled from the spec: the database owns a name and the mapping
from table name to Table (struct literal visible in main.go:
`engine.NewDatabase where Name, Tables`).  The reader/writer lock field
has no observable pure content and is omitted. -/
structure NewDatabase where
  Name : String
  Tables : List (String × Table)
deriving DecidableEq

/-- Modelled from the spec: a parsed query; fields as initialised by
ParseQuery in engine.go (Limit is a Go `int`, hence `Int`). -/
structure Query where
  Select : List String
  From : String
  Where : String
  OrderBy : String
  Limit : Int
deriving DecidableEq

/-- The error taxonomy of engine.go (`ErrTableNotFound` and friends);
kinds rather than formatted messages, as the spec prescribes. -/
inductive EngineError where
  | TableNotFound
  | IDNotFound
  | IDExists
  | TableExists
  | InvalidQuery
  | TransactionFailed
deriving DecidableEq

/- ----------------------------------------------------------------
Query parser (ParseQuery in engine.go).
---------------------------------------------------------------- -/

/-- Accumulator pass behind `fields`: splits a character stream on
whitespace runs, building the current word in reverse. -/
def fieldsAux : List Char → List Char → List String
  | [], cur => if cur.isEmpty then [] else [String.mk cur.reverse]
  | c :: cs, cur =>
      if c.isWhitespace then
        if cur.isEmpty then fieldsAux cs []
        else String.mk cur.reverse :: fieldsAux cs []
      else fieldsAux cs (c :: cur)

/-- Go `strings.Fields`: splits the string around runs of whitespace,
dropping empty fields. -/
def fields (s : String) : List String :=
  fieldsAux s.toList []

/-- Go `fmt.Sscan(s, target)` specialised to an integer target: parses an
optional sign followed by a digit run; on a token with no leading
integer the target keeps its current value (Sscan leaves it untouched). -/
def sscanInt (s : String) (current : Int) : Int :=
  let signed : (Int × List Char) :=
    match s.toList with
    | '-' :: rest => (-1, rest)
    | '+' :: rest => (1, rest)
    | l => (1, l)
  let digits := signed.2.takeWhile Char.isDigit
  if digits.isEmpty then current
  else signed.1 * (Int.ofNat (digits.foldl (fun acc c => acc * 10 + (c.toNat - 48)) 0))

/-- Go `strings.ToUpper`: uppercases every character (the inputs in
question are ASCII keywords). -/
def toUpperGo (s : String) : String :=
  String.mk (s.toList.map Char.toUpper)

/-- Outcome of ParseQuery: a parsed query, the typed invalid-format
error, or the Go runtime panic raised by an out-of-range index. -/
inductive ParseOutcome where
  | ok (q : Query)
  | err (e : EngineError)
  | indexOutOfRange
deriving DecidableEq

/-- The keyword-scanning loop of ParseQuery (`for i := 4; ...`),
transcribed over the remaining token list; the skip counter carries the
`i` increments a clause performs, so each step consumes one token.
The WHERE branch reads `parts[i+1]` without a bounds check, so a
trailing WHERE reaches the out-of-range panic; the ORDER and LIMIT
branches are guarded. -/
def scanClauses : List String → Nat → Query → ParseOutcome
  | [], _, q => .ok q
  | _ :: rest, skip + 1, q => scanClauses rest skip q
  | t :: rest, 0, q =>
      if toUpperGo t = "WHERE" then
        match rest with
        | [] => .indexOutOfRange
        | w :: _ => scanClauses rest 1 { q with Where := w }
      else if toUpperGo t = "ORDER" then
        match rest with
        | b :: o :: _ =>
            if toUpperGo b = "BY" then scanClauses rest 2 { q with OrderBy := o }
            else scanClauses rest 0 q
        | _ => scanClauses rest 0 q
      else if toUpperGo t = "LIMIT" then
        match rest with
        | n :: _ => scanClauses rest 1 { q with Limit := sscanInt n q.Limit }
        | [] => scanClauses rest 0 q
      else scanClauses rest 0 q

/-- ParseQuery from engine.go: splits on whitespace, rejects inputs of
fewer than 4 tokens, takes tokens 1-2 as the select list (`parts[1:3]`)
and token 3 as the table name, then scans the rest for clause
keywords. -/
def ParseQuery (query : String) : ParseOutcome :=
  let parts := fields query
  if parts.length < 4 then .err .InvalidQuery
  else
    scanClauses (parts.drop 4) 0
      { Select := (parts.drop 1).take 2
        From := parts.getD 3 ""
        Where := ""
        OrderBy := ""
        Limit := 0 }

/- ----------------------------------------------------------------
Execution planner (createExecutionPlan in engine.go).
---------------------------------------------------------------- -/

/-- The operation kinds of the plan (Scan, Filter, Project, Sort,
LimitOp constants from the file absent from src/, modelled from the
spec and from their uses in engine.go). -/
inductive OpType where
  | Scan
  | Filter
  | Project
  | Sort
  | LimitOp
deriving DecidableEq

/-- Modelled from the spec: one plan operation, with kind-specific
parameter fields left at Go zero values when unused (the source field
named `Type` is a reserved word in Lean and is embedded as `Kind`).
The Parent back-reference of the source is traversal bookkeeping never consulted
by execution (spec sections 3 and 4.2) and is omitted from the
embedding. -/
structure Operation where
  Kind : OpType
  Table : String := ""
  Filter : String := ""
  Columns : List String := []
  Order : String := ""
  Limit : Int := 0
deriving DecidableEq

/-- Modelled from the spec: a plan is the ordered sequence of
operations. -/
structure ExecutionPlan where
  Operations : List Operation
deriving DecidableEq

/-- Modelled from the spec: the final column list and row sequence
produced by execution. -/
structure QueryResult where
  Columns : List String := []
  Rows : List Row := []
deriving DecidableEq

/-- createExecutionPlan from engine.go: Scan, then Filter iff Where is
non-empty, then Project, then Sort iff OrderBy is non-empty, then
LimitOp iff Limit is positive.  The source returns a `(plan, error)`
pair whose error is always nil. -/
def createExecutionPlan (query : Query) : ExecutionPlan × Option EngineError :=
  let ops := [({ Kind := .Scan, Table := query.From } : Operation)]
  let ops := if query.Where ≠ "" then
      ops ++ [({ Kind := .Filter, Filter := query.Where } : Operation)]
    else ops
  let ops := ops ++ [({ Kind := .Project, Columns := query.Select } : Operation)]
  let ops := if query.OrderBy ≠ "" then
      ops ++ [({ Kind := .Sort, Order := query.OrderBy } : Operation)]
    else ops
  let ops := if query.Limit > 0 then
      ops ++ [({ Kind := .LimitOp, Limit := query.Limit } : Operation)]
    else ops
  ({ Operations := ops }, none)

/- ----------------------------------------------------------------
Plan executor (executeplan and helpers in engine.go).
---------------------------------------------------------------- -/

/-- evaluateFilter from engine.go: the placeholder predicate evaluator,
accepting every row unconditionally. -/
def evaluateFilter (row : Row) (filter : String) : Bool :=
  true

/-- filterRows from engine.go: keeps the rows the predicate accepts. -/
def filterRows (rows : List Row) (filter : String) : List Row :=
  rows.filter (fun row => evaluateFilter row filter)

/-- projectRows from engine.go: builds new rows holding only the
requested columns, omitting columns absent from the source row. -/
def projectRows (rows : List Row) (columns : List String) : List Row :=
  rows.map (fun row =>
    { Columns := columns.foldl (fun acc col =>
        match mapGet? row.Columns col with
        | some v => mapSet acc col v
        | none => acc) [] })

/-- sortRows from engine.go: `sort.Slice` with the comparator that
returns true on every pair.  On slices of length at most 6 every Go
release runs the plain insertion sort (below the pdqsort threshold and
the shell-sort gap), and an insertion sort whose less test always
succeeds swaps each element all the way to the front of the processed
prefix, reversing the slice; that regime is what the embedding
captures, and longer slices (whose permutation is Go-version-specific)
are left unmodelled as the identity. -/
def sortRows (rows : List Row) (o : String) : List Row :=
  if rows.length ≤ 6 then rows.foldl (fun sorted r => r :: sorted) []
  else rows

/-- The operation loop of executeplan: folds the operation sequence
over the current column list and row sequence.  A Scan operation has no
case in the source switch and leaves both unchanged. -/
def execOps : List Operation → List String → List Row → List String × List Row
  | [], cols, rows => (cols, rows)
  | op :: rest, cols, rows =>
      match op.Kind with
      | .Scan => execOps rest cols rows
      | .Filter => execOps rest cols (filterRows rows op.Filter)
      | .Project => execOps rest op.Columns (projectRows rows op.Columns)
      | .Sort => execOps rest cols (sortRows rows op.Order)
      | .LimitOp =>
          execOps rest cols
            (if (rows.length : Int) > op.Limit then rows.take op.Limit.toNat else rows)

/-- Outcome of executeplan: a result, a typed error, or the Go panic
from indexing Operations[0] of an empty plan (never produced by the
planner). -/
inductive ExecOutcome where
  | ok (r : QueryResult)
  | err (e : EngineError)
  | indexOutOfRange
deriving DecidableEq

/-- executeplan from engine.go: resolves the table named by operation 0,
then applies the operations in sequence over its row list. -/
def executeplan (db : NewDatabase) (plan : ExecutionPlan) : ExecOutcome :=
  match plan.Operations with
  | [] => .indexOutOfRange
  | op0 :: _ =>
      match mapGet? db.Tables op0.Table with
      | none => .err .TableNotFound
      | some table =>
          let out := execOps plan.Operations [] table.Rows
          .ok { Columns := out.1, Rows := out.2 }

/- ----------------------------------------------------------------
Table store CRUD (engine.go).
---------------------------------------------------------------- -/

/-- The row-identifier test used by every id-based scan in engine.go:
`val, ok := row.Columns["id"].(string); ok && val == id` — a lookup of
the "id" column followed by a string type assertion. -/
def rowMatchesID (row : Row) (id : String) : Bool :=
  match (mapGet? row.Columns "id").bind Value.asString? with
  | some val => val == id
  | none => false

/-- rowKeyExists from engine.go: whether some row carries the given id
as a string-typed "id" column. -/
def rowKeyExists (rows : List Row) (id : String) : Bool :=
  rows.any (fun row => rowMatchesID row id)

/-- The merge loop `for key, value := range data` of engine.go: writes
every entry of the data map over the base columns. -/
def mergeCols (base : List (String × Value)) (data : List (String × Value)) :
    List (String × Value) :=
  data.foldl (fun acc kv => mapSet acc kv.1 kv.2) base

/-- InsertRow from engine.go: requires the table to exist and the id to
be absent, then appends a row with the "id" column set to the given id
and the data map merged over it (a data entry keyed "id" overwrites the
id written first). -/
def InsertRow (db : NewDatabase) (tableName id : String)
    (data : List (String × Value)) : Option EngineError × NewDatabase :=
  match mapGet? db.Tables tableName with
  | none => (some .TableNotFound, db)
  | some table =>
      if rowKeyExists table.Rows id then (some .IDExists, db)
      else
        let newRow : Row := { Columns := mergeCols [("id", Value.str id)] data }
        let table2 := { table with Rows := table.Rows ++ [newRow] }
        (none, { db with Tables := mapSet db.Tables tableName table2 })

/-- The row-update loop of UpdateRow: merges the new data into the
first row whose string-typed "id" matches, or reports no match. -/
def updateFirst : List Row → String → List (String × Value) → Option (List Row)
  | [], _, _ => none
  | row :: rest, id, newData =>
      if rowMatchesID row id then
        some ({ Columns := mergeCols row.Columns newData } :: rest)
      else
        (updateFirst rest id newData).map (fun rest2 => row :: rest2)

/-- UpdateRow from engine.go. -/
def UpdateRow (db : NewDatabase) (tableName id : String)
    (newData : List (String × Value)) : Option EngineError × NewDatabase :=
  match mapGet? db.Tables tableName with
  | none => (some .TableNotFound, db)
  | some table =>
      match updateFirst table.Rows id newData with
      | some rows2 =>
          (none, { db with Tables := mapSet db.Tables tableName { table with Rows := rows2 } })
      | none => (some .IDNotFound, db)

/-- The row-removal loop of DeleteRow: removes the first row whose
string-typed "id" matches, preserving the order of the rest. -/
def deleteFirst : List Row → String → Option (List Row)
  | [], _ => none
  | row :: rest, id =>
      if rowMatchesID row id then some rest
      else (deleteFirst rest id).map (fun rest2 => row :: rest2)

/-- DeleteRow from engine.go. -/
def DeleteRow (db : NewDatabase) (tableName id : String) :
    Option EngineError × NewDatabase :=
  match mapGet? db.Tables tableName with
  | none => (some .TableNotFound, db)
  | some table =>
      match deleteFirst table.Rows id with
      | some rows2 =>
          (none, { db with Tables := mapSet db.Tables tableName { table with Rows := rows2 } })
      | none => (some .IDNotFound, db)

/-- GetRowByID from engine.go: the first row whose string-typed "id"
column equals the requested id; like the source, the error cases return
the zero-value row alongside the error. -/
def GetRowByID (db : NewDatabase) (tableName id : String) :
    Row × Option EngineError :=
  match mapGet? db.Tables tableName with
  | none => ({ Columns := [] }, some .TableNotFound)
  | some table =>
      match table.Rows.find? (fun row => rowMatchesID row id) with
      | some row => (row, none)
      | none => ({ Columns := [] }, some .IDNotFound)

/-- CreateTable from engine.go: fails on a duplicate name, otherwise
stores an empty table with the given metadata. -/
def CreateTable (db : NewDatabase) (tableName : String)
    (columns : List Column) (indexes : List Index) :
    Option EngineError × NewDatabase :=
  match mapGet? db.Tables tableName with
  | some _ => (some .TableExists, db)
  | none =>
      let table : Table :=
        { Name := tableName, Columns := columns, Indexes := indexes, Rows := [] }
      (none, { db with Tables := mapSet db.Tables tableName table })

/-- DropTable from engine.go. -/
def DropTable (db : NewDatabase) (tableName : String) :
    Option EngineError × NewDatabase :=
  match mapGet? db.Tables tableName with
  | none => (some .TableNotFound, db)
  | some _ => (none, { db with Tables := mapDelete db.Tables tableName })

/- ----------------------------------------------------------------
Transaction tracker (engine.go).
---------------------------------------------------------------- -/

/-- Modelled from the spec: the transaction status state machine
(Pending initial, Committed and RolledBack terminal). -/
inductive TxStatus where
  | Pending
  | Committed
  | RolledBack
deriving DecidableEq

/-- Modelled from the spec: a transaction handle; the identifier and
start timestamp come from the wall clock, passed in as a parameter of
the pure embedding. -/
structure Transaction where
  ID : Nat
  Status : TxStatus
  StartedAt : Nat
deriving DecidableEq

/-- generateTransactionID from engine.go: the nanosecond component of
the current time, supplied to the embedding as `now`. -/
def generateTransactionID (now : Nat) : Nat :=
  now

/-- BeginTransaction from engine.go: always succeeds, issuing a Pending
handle stamped with the current time. -/
def BeginTransaction (now : Nat) : Transaction :=
  { ID := generateTransactionID now, Status := .Pending, StartedAt := now }

/-- CommitTransaction from engine.go: fails unless the status is
Pending, otherwise sets Committed.  The receiver database is threaded
through untouched (the method only takes the lock). -/
def CommitTransaction (db : NewDatabase) (transaction : Transaction) :
    Option EngineError × NewDatabase × Transaction :=
  if transaction.Status ≠ .Pending then (some .TransactionFailed, db, transaction)
  else (none, db, { transaction with Status := .Committed })

/-- RollbackTransaction from engine.go: symmetric to commit, setting
RolledBack. -/
def RollbackTransaction (db : NewDatabase) (transaction : Transaction) :
    Option EngineError × NewDatabase × Transaction :=
  if transaction.Status ≠ .Pending then (some .TransactionFailed, db, transaction)
  else (none, db, { transaction with Status := .RolledBack })

/- ----------------------------------------------------------------
Helper lemmas about the map model and the row scans.
---------------------------------------------------------------- -/

theorem mapGet_set_self {α : Type} (m : List (String × α)) (k : String) (v : α) :
    mapGet? (mapSet m k v) k = some v := by
  induction m with
  | nil => simp [mapSet, mapGet?]
  | cons p rest ih =>
      obtain ⟨k1, v1⟩ := p
      by_cases h : k1 = k <;> simp [mapSet, mapGet?, h, ih]

theorem mapGet_set_ne {α : Type} (m : List (String × α)) (k k2 : String) (v : α)
    (h : k2 ≠ k) : mapGet? (mapSet m k v) k2 = mapGet? m k2 := by
  induction m with
  | nil => simp [mapSet, mapGet?, Ne.symm h]
  | cons p rest ih =>
      obtain ⟨k1, v1⟩ := p
      by_cases h1 : k1 = k <;> by_cases h2 : k1 = k2 <;>
        simp_all [mapSet, mapGet?]

theorem mergeCols_cons (base : List (String × Value)) (k : String) (v : Value)
    (d : List (String × Value)) :
    mergeCols base ((k, v) :: d) = mergeCols (mapSet base k v) d := rfl

theorem mergeCols_get_not_mem (base d : List (String × Value)) (k : String)
    (h : k ∉ d.map Prod.fst) :
    mapGet? (mergeCols base d) k = mapGet? base k := by
  induction d generalizing base with
  | nil => rfl
  | cons p rest ih =>
      obtain ⟨k1, v1⟩ := p
      simp only [List.map_cons, List.mem_cons] at h
      push_neg at h
      rw [mergeCols_cons, ih _ h.2, mapGet_set_ne _ _ _ _ h.1]

theorem mergeCols_get_const (base d : List (String × Value)) (k : String) (v0 : Value)
    (hd : ∀ v, (k, v) ∈ d → v = v0) (hbase : mapGet? base k = some v0) :
    mapGet? (mergeCols base d) k = some v0 := by
  induction d generalizing base with
  | nil => exact hbase
  | cons p rest ih =>
      obtain ⟨k1, v1⟩ := p
      rw [mergeCols_cons]
      refine ih _ (fun v hv => hd v (List.mem_cons_of_mem _ hv)) ?_
      by_cases h1 : k1 = k
      · subst h1
        have : v1 = v0 := hd v1 (List.mem_cons_self _ _)
        subst this
        exact mapGet_set_self _ _ _
      · rw [mapGet_set_ne _ _ _ _ (fun hh => h1 hh.symm)]
        exact hbase

theorem mergeCols_get_mem (base d : List (String × Value)) (k : String) (v : Value)
    (hnd : (d.map Prod.fst).Nodup) (hmem : (k, v) ∈ d) :
    mapGet? (mergeCols base d) k = some v := by
  induction d generalizing base with
  | nil => cases hmem
  | cons p rest ih =>
      obtain ⟨k1, v1⟩ := p
      simp only [List.map_cons, List.nodup_cons] at hnd
      rw [mergeCols_cons]
      rcases List.mem_cons.mp hmem with h | h
      · rw [Prod.mk.injEq] at h
        obtain ⟨rfl, rfl⟩ := h
        rw [mergeCols_get_not_mem _ _ _ hnd.1]
        exact mapGet_set_self _ _ _
      · exact ih _ hnd.2 h

theorem any_eq_false_of_all {α : Type} (p : α → Bool) (l : List α)
    (h : ∀ x ∈ l, p x = false) : l.any p = false := by
  induction l <;> simp_all

theorem all_false_of_any_false {α : Type} (p : α → Bool) (l : List α)
    (h : l.any p = false) : ∀ x ∈ l, p x = false := by
  induction l <;> simp_all

theorem rowMatchesID_eq_false_of_nonstring (r : Row) (id : String)
    (h : (mapGet? r.Columns "id").bind Value.asString? = none) :
    rowMatchesID r id = false := by
  simp [rowMatchesID, h]

theorem rowMatchesID_eq_true (r : Row) (id : String)
    (h : mapGet? r.Columns "id" = some (Value.str id)) :
    rowMatchesID r id = true := by
  simp [rowMatchesID, h, Value.asString?]

theorem updateFirst_eq_none (rows : List Row) (id : String) (nd : List (String × Value))
    (h : ∀ r ∈ rows, rowMatchesID r id = false) :
    updateFirst rows id nd = none := by
  induction rows <;> simp_all [updateFirst]

theorem deleteFirst_eq_none (rows : List Row) (id : String)
    (h : ∀ r ∈ rows, rowMatchesID r id = false) :
    deleteFirst rows id = none := by
  induction rows <;> simp_all [deleteFirst]

theorem filterRows_id (rows : List Row) (f : String) : filterRows rows f = rows := by
  simp [filterRows, evaluateFilter]

theorem projectRows_length (rows : List Row) (cols : List String) :
    (projectRows rows cols).length = rows.length := by
  simp [projectRows]

theorem foldl_cons_eq (l acc : List Row) :
    l.foldl (fun sorted r => r :: sorted) acc = l.reverse ++ acc := by
  induction l generalizing acc <;> simp [*]

theorem sortRows_eq_reverse (rows : List Row) (o : String) (h : rows.length ≤ 6) :
    sortRows rows o = rows.reverse := by
  simp [sortRows, h, foldl_cons_eq]

theorem createExecutionPlan_ops (q : Query) :
    (createExecutionPlan q).1.Operations =
      [{ Kind := .Scan, Table := q.From }]
      ++ (if q.Where ≠ "" then [({ Kind := .Filter, Filter := q.Where } : Operation)] else [])
      ++ [({ Kind := .Project, Columns := q.Select } : Operation)]
      ++ (if q.OrderBy ≠ "" then [({ Kind := .Sort, Order := q.OrderBy } : Operation)] else [])
      ++ (if q.Limit > 0 then [({ Kind := .LimitOp, Limit := q.Limit } : Operation)] else []) := by
  by_cases hW : q.Where = "" <;> by_cases hO : q.OrderBy = "" <;>
    by_cases hL : q.Limit > 0 <;>
      simp [createExecutionPlan, hW, hO, hL]

/- ----------------------------------------------------------------
Sample states used by the witnesses and counterexamples.
---------------------------------------------------------------- -/

/-- An empty database, as constructed by main.go. -/
def emptyDb : NewDatabase := { Name := "kiv", Tables := [] }

/-- A database holding one table "t" with no rows. -/
def emptyTableT : Table := { Name := "t", Columns := [], Indexes := [], Rows := [] }

/-- See `emptyTableT`. -/
def oneEmptyTableDb : NewDatabase := { Name := "kiv", Tables := [("t", emptyTableT)] }

/-- A sample row with a string id "1" and an integer column "a". -/
def sampleRowOne : Row := { Columns := [("id", Value.str "1"), ("a", Value.int 1)] }

/-- A sample row with a string id "2" and an integer column "a". -/
def sampleRowTwo : Row := { Columns := [("id", Value.str "2"), ("a", Value.int 2)] }

/-- A table "t" holding the two sample rows. -/
def twoRowTable : Table :=
  { Name := "t", Columns := [], Indexes := [], Rows := [sampleRowOne, sampleRowTwo] }

/-- A database holding `twoRowTable`. -/
def twoRowDb : NewDatabase := { Name := "kiv", Tables := [("t", twoRowTable)] }

/-- A query over "t" selecting column "a" with an order-by key and no
limit. -/
def sortQuery : Query :=
  { Select := ["a"], From := "t", Where := "", OrderBy := "a", Limit := 0 }

/-- A table "t" whose single row carries a non-string (integer) value
in its "id" column. -/
def nonStringIdTable : Table :=
  { Name := "t", Columns := [], Indexes := [],
    Rows := [{ Columns := [("id", Value.int 5)] }] }

/-- A database holding `nonStringIdTable`. -/
def nonStringIdDb : NewDatabase := { Name := "kiv", Tables := [("t", nonStringIdTable)] }

/- ----------------------------------------------------------------
Claim theorems.
---------------------------------------------------------------- -/

/-- Claim C1, counterexample: the parse of
"SELECT a b FROM users WHERE x LIMIT 5" does not produce the Query the
claim states, because the From field receives token 3, which is the
literal keyword "FROM" rather than "users". -/
theorem C1_counterexample :
    ParseQuery "SELECT a b FROM users WHERE x LIMIT 5" ≠
      ParseOutcome.ok
        { Select := ["a", "b"], From := "users", Where := "x", OrderBy := "", Limit := 5 } := by
  decide

/-- Claim C1, amended: parsing "SELECT a b FROM users WHERE x LIMIT 5"
returns, with no error, a Query with Select exactly ["a", "b"], From
equal to "FROM" (token 3 of the input), Where "x", Limit 5 and an empty
OrderBy. -/
theorem C1_amended :
    ParseQuery "SELECT a b FROM users WHERE x LIMIT 5" =
      ParseOutcome.ok
        { Select := ["a", "b"], From := "FROM", Where := "x", OrderBy := "", Limit := 5 } := by
  decide

/-- Claim C2, code bug: on the input "SELECT a b FROM WHERE", whose
last token is WHERE at a keyword-scanning position, ParseQuery reads
`parts[i+1]` past the end of the token slice and reaches the Go
index-out-of-range panic instead of returning a Query or a typed
error. -/
theorem C2_panic :
    ParseQuery "SELECT a b FROM WHERE" = ParseOutcome.indexOutOfRange := by
  decide

/-- The list of per-row "id" values of a table, whose uniqueness the
spec states as the table invariant. -/
def idValues (t : Table) : List (Option Value) :=
  t.Rows.map (fun r => mapGet? r.Columns "id")

/-- The id-uniqueness invariant as the spec words it: within a table,
the value stored under each row's "id" key is unique among all rows. -/
def idUniqueInvariant (t : Table) : Prop :=
  (idValues t).Nodup

/-- First step of the C4 failing run: create table "t" in the empty
database. -/
def dupStepOne : NewDatabase := (CreateTable emptyDb "t" [] []).2

/-- Second step of the C4 failing run: insert id "a" with no data. -/
def dupStepTwo : NewDatabase := (InsertRow dupStepOne "t" "a" []).2

/-- Third step of the C4 failing run: insert id "b" with a data map
whose "id" entry is "a", which overwrites the id column after the
uniqueness check ran against "b". -/
def dupStepThree : NewDatabase :=
  (InsertRow dupStepTwo "t" "b" [("id", Value.str "a")]).2

/-- The table the C4 failing run produces: two rows, both with "id"
value "a". -/
def dupTable : Table :=
  { Name := "t", Columns := [], Indexes := [],
    Rows := [{ Columns := [("id", Value.str "a")] },
             { Columns := [("id", Value.str "a")] }] }

/-- Claim C4, code bug: from the empty database, the successful
operation sequence CreateTable "t", InsertRow "t" "a" with empty data,
InsertRow "t" "b" with data mapping "id" to "a" reaches a state whose
table "t" violates the id-uniqueness invariant: both rows store "a"
under "id". -/
theorem C4_bug :
    (CreateTable emptyDb "t" [] []).1 = none ∧
    (InsertRow dupStepOne "t" "a" []).1 = none ∧
    (InsertRow dupStepTwo "t" "b" [("id", Value.str "a")]).1 = none ∧
    mapGet? dupStepThree.Tables "t" = some dupTable ∧
    ¬ idUniqueInvariant dupTable := by
  refine ⟨by decide, by decide, by decide, by decide, ?_⟩
  unfold idUniqueInvariant idValues
  decide

/-- The operation sequence exactly as claim C7 words it: a Scan over
From, then a Filter carrying Where iff Where is non-empty, then a
Project with Select, then a Sort with OrderBy iff OrderBy is non-empty,
then a LimitOp with Limit iff Limit is positive. -/
def claimPlanOps (q : Query) : List Operation :=
  [{ Kind := .Scan, Table := q.From }]
  ++ (if q.Where ≠ "" then [({ Kind := .Filter, Filter := q.Where } : Operation)] else [])
  ++ [({ Kind := .Project, Columns := q.Select } : Operation)]
  ++ (if q.OrderBy ≠ "" then [({ Kind := .Sort, Order := q.OrderBy } : Operation)] else [])
  ++ (if q.Limit > 0 then [({ Kind := .LimitOp, Limit := q.Limit } : Operation)] else [])

/-- Claim C7, confirmed: for every Query the planner returns no error
and emits exactly the operation sequence the claim describes, in that
order. -/
theorem C7_confirmed (q : Query) :
    (createExecutionPlan q).2 = none ∧
    (createExecutionPlan q).1.Operations = claimPlanOps q :=
  ⟨rfl, createExecutionPlan_ops q⟩

/-- Claim C3, counterexample: over the two-row sample table, the plan
for `sortQuery` is exactly the plan for the identical query without the
order-by key plus one trailing Sort operation, yet the two executions
return different row sequences — the Sort step is not a no-op. -/
theorem C3_counterexample :
    (createExecutionPlan sortQuery).1.Operations =
      (createExecutionPlan { sortQuery with OrderBy := "" }).1.Operations
        ++ [({ Kind := .Sort, Order := "a" } : Operation)] ∧
    executeplan twoRowDb (createExecutionPlan sortQuery).1 ≠
      executeplan twoRowDb (createExecutionPlan { sortQuery with OrderBy := "" }).1 := by
  exact ⟨by decide, by decide⟩

/-- Claim C3, amended: the Sort step reverses the row sequence rather
than leaving it unchanged.  With the always-true comparator, Go's
`sort.Slice` runs a plain insertion sort on sequences of at most 6
rows, which moves every element to the front in turn; so for a query
with a non-empty order-by key and no limit over a table of at most 6
rows, execution returns exactly the reverse of the rows returned by the
identical plan without the Sort operation. -/
theorem C3_amended (db : NewDatabase) (q : Query) (T : Table)
    (hOrd : q.OrderBy ≠ "") (hLim : ¬ q.Limit > 0)
    (hT : mapGet? db.Tables q.From = some T) (hLen : T.Rows.length ≤ 6) :
    ∃ rows,
      executeplan db (createExecutionPlan { q with OrderBy := "" }).1 =
        .ok { Columns := q.Select, Rows := rows } ∧
      executeplan db (createExecutionPlan q).1 =
        .ok { Columns := q.Select, Rows := rows.reverse } := by
  refine ⟨projectRows T.Rows q.Select, ?_, ?_⟩ <;>
    by_cases hW : q.Where = "" <;>
      simp [createExecutionPlan, executeplan, execOps, hW, hOrd, hLim, hT,
        filterRows_id, sortRows_eq_reverse, projectRows_length, hLen]

/-- Claim C3, witness: the amended statement instantiated on the
two-row sample database and `sortQuery`. -/
theorem C3_amended_witness :
    ∃ rows,
      executeplan twoRowDb (createExecutionPlan { sortQuery with OrderBy := "" }).1 =
        .ok { Columns := sortQuery.Select, Rows := rows } ∧
      executeplan twoRowDb (createExecutionPlan sortQuery).1 =
        .ok { Columns := sortQuery.Select, Rows := rows.reverse } :=
  C3_amended twoRowDb sortQuery twoRowTable (by decide) (by decide) (by decide) (by decide)

/-- Claim C5, counterexample: on the empty table "t", inserting id "a"
with a data map whose "id" entry is "b" succeeds, but the follow-up
getRowByID on "a" reports IDNotFound instead of returning the row —
the data map overwrote the row's id column after the check. -/
theorem C5_counterexample :
    (InsertRow oneEmptyTableDb "t" "a" [("id", Value.str "b")]).1 = none ∧
    (GetRowByID (InsertRow oneEmptyTableDb "t" "a" [("id", Value.str "b")]).2 "t" "a").2 =
      some EngineError.IDNotFound := by
  exact ⟨by decide, by decide⟩

/-- Claim C5, amended: for every existing table, every id not yet
present in it, and every data map d with distinct keys whose "id"
entry, when present, is the inserted id itself, a successful insert
followed by getRowByID on that id returns a row whose columns map "id"
to the id and contain every key of d with the value d gives it. -/
theorem C5_amended (db : NewDatabase) (t id : String) (T : Table)
    (d : List (String × Value))
    (hT : mapGet? db.Tables t = some T)
    (hAbsent : rowKeyExists T.Rows id = false)
    (hIdEntry : ∀ p ∈ d, p.1 = "id" → p.2 = Value.str id)
    (hKeys : (d.map Prod.fst).Nodup) :
    ∃ db2 r,
      InsertRow db t id d = (none, db2) ∧
      GetRowByID db2 t id = (r, none) ∧
      mapGet? r.Columns "id" = some (Value.str id) ∧
      ∀ k v, (k, v) ∈ d → mapGet? r.Columns k = some v := by
  have hBase : mapGet? [("id", Value.str id)] "id" = some (Value.str id) := by
    simp [mapGet?]
  have hIdEntry2 : ∀ v, ("id", v) ∈ d → v = Value.str id :=
    fun v hv => hIdEntry _ hv rfl
  set newRow : Row := { Columns := mergeCols [("id", Value.str id)] d } with hRow
  have hGet : mapGet? newRow.Columns "id" = some (Value.str id) :=
    mergeCols_get_const _ _ _ _ hIdEntry2 hBase
  set T2 : Table := { T with Rows := T.Rows ++ [newRow] } with hT2
  refine ⟨{ db with Tables := mapSet db.Tables t T2 }, newRow, ?_, ?_, hGet, ?_⟩
  · simp [InsertRow, hT, hAbsent, hRow, hT2]
  · have hNoOld : T.Rows.find? (fun r => rowMatchesID r id) = none := by
      rw [List.find?_eq_none]
      intro r hr
      simp [all_false_of_any_false _ _ hAbsent r hr]
    simp [GetRowByID, mapGet_set_self, hT2, List.find?_append, hNoOld,
      List.find?, rowMatchesID_eq_true _ _ hGet]
  · intro k v hkv
    exact mergeCols_get_mem _ _ _ _ hKeys hkv

/-- Claim C5, witness: the amended statement instantiated on the
one-empty-table database with id "a" and data mapping "x" to 1. -/
theorem C5_amended_witness :
    ∃ db2 r,
      InsertRow oneEmptyTableDb "t" "a" [("x", Value.int 1)] = (none, db2) ∧
      GetRowByID db2 "t" "a" = (r, none) ∧
      mapGet? r.Columns "id" = some (Value.str "a") ∧
      ∀ k v, (k, v) ∈ [("x", Value.int 1)] → mapGet? r.Columns k = some v :=
  C5_amended oneEmptyTableDb "t" "a" emptyTableT [("x", Value.int 1)]
    (by decide) (by decide) (by decide) (by decide)

/-- Claim C6, confirmed: every failing write leaves the database
exactly as it was — each of the five write operations returns the
received state unchanged whenever it reports an error. -/
theorem C6_confirmed (db : NewDatabase) (t id : String)
    (d nd : List (String × Value)) (cols : List Column) (idxs : List Index) :
    ((InsertRow db t id d).1.isSome → (InsertRow db t id d).2 = db) ∧
    ((UpdateRow db t id nd).1.isSome → (UpdateRow db t id nd).2 = db) ∧
    ((DeleteRow db t id).1.isSome → (DeleteRow db t id).2 = db) ∧
    ((CreateTable db t cols idxs).1.isSome → (CreateTable db t cols idxs).2 = db) ∧
    ((DropTable db t).1.isSome → (DropTable db t).2 = db) := by
  refine ⟨?_, ?_, ?_, ?_, ?_⟩ <;> intro h
  · unfold InsertRow at h ⊢
    rcases hT : mapGet? db.Tables t with _ | T
    · simp [hT]
    · simp only [hT] at h ⊢
      cases hK : rowKeyExists T.Rows id
      · simp [hK] at h
      · simp [hK]
  · unfold UpdateRow at h ⊢
    rcases hT : mapGet? db.Tables t with _ | T
    · simp [hT]
    · simp only [hT] at h ⊢
      rcases hU : updateFirst T.Rows id nd with _ | rows2
      · simp [hU]
      · simp [hU] at h
  · unfold DeleteRow at h ⊢
    rcases hT : mapGet? db.Tables t with _ | T
    · simp [hT]
    · simp only [hT] at h ⊢
      rcases hD : deleteFirst T.Rows id with _ | rows2
      · simp [hD]
      · simp [hD] at h
  · unfold CreateTable at h ⊢
    rcases hT : mapGet? db.Tables t with _ | T
    · simp [hT] at h
    · simp [hT]
  · unfold DropTable at h ⊢
    rcases hT : mapGet? db.Tables t with _ | T
    · simp [hT]
    · simp [hT] at h

/-- Claim C6, witness: inserting into the empty database fails with an
error and, by the theorem, returns the database unchanged. -/
theorem C6_witness :
    (InsertRow emptyDb "t" "a" []).1.isSome ∧
    (InsertRow emptyDb "t" "a" []).2 = emptyDb :=
  ⟨by decide, (C6_confirmed emptyDb "t" "a" [] [] [] []).1 (by decide)⟩

/-- Claim C8, confirmed: a transaction handle starts Pending, the first
commit on a Pending handle succeeds and sets Committed, and every
commit or rollback on a Committed handle fails with TransactionFailed
and leaves the handle Committed — the Committed state is terminal. -/
theorem C8_confirmed (db : NewDatabase) (tx : Transaction)
    (hP : tx.Status = .Pending) :
    (∀ now : Nat, (BeginTransaction now).Status = .Pending) ∧
    (CommitTransaction db tx).1 = none ∧
    (CommitTransaction db tx).2.2.Status = .Committed ∧
    (∀ (db2 : NewDatabase) (tx2 : Transaction), tx2.Status = .Committed →
      CommitTransaction db2 tx2 = (some .TransactionFailed, db2, tx2) ∧
      RollbackTransaction db2 tx2 = (some .TransactionFailed, db2, tx2)) := by
  refine ⟨fun now => rfl, ?_, ?_, ?_⟩
  · simp [CommitTransaction, hP]
  · simp [CommitTransaction, hP]
  · intro db2 tx2 h2
    constructor <;> simp [CommitTransaction, RollbackTransaction, h2]

/-- Claim C8, witness: the statement instantiated on a freshly begun
transaction, whose first commit succeeds and sets Committed. -/
theorem C8_witness :
    (CommitTransaction emptyDb (BeginTransaction 7)).1 = none ∧
    (CommitTransaction emptyDb (BeginTransaction 7)).2.2.Status = .Committed :=
  ⟨(C8_confirmed emptyDb (BeginTransaction 7) rfl).2.1,
   (C8_confirmed emptyDb (BeginTransaction 7) rfl).2.2.1⟩

/-- Claim C9, confirmed: commit and rollback, successful or not, leave
the database untouched and change at most the status field of the
handle — its identifier and start timestamp are preserved. -/
theorem C9_confirmed (db : NewDatabase) (tx : Transaction) :
    (CommitTransaction db tx).2.1 = db ∧
    (CommitTransaction db tx).2.2.ID = tx.ID ∧
    (CommitTransaction db tx).2.2.StartedAt = tx.StartedAt ∧
    (RollbackTransaction db tx).2.1 = db ∧
    (RollbackTransaction db tx).2.2.ID = tx.ID ∧
    (RollbackTransaction db tx).2.2.StartedAt = tx.StartedAt := by
  by_cases h : tx.Status = .Pending <;>
    simp [CommitTransaction, RollbackTransaction, h]

/-- Claim C10, confirmed: a row whose "id" value is not a string never
matches the id scan predicate, and in a table all of whose rows carry
non-string ids, getRowByID, updateRow and deleteRow report IDNotFound
(leaving the database unchanged) while insertRow's duplicate check
ignores every row and the insert succeeds. -/
theorem C10_confirmed :
    (∀ (r : Row) (id : String),
        (mapGet? r.Columns "id").bind Value.asString? = none →
        rowMatchesID r id = false) ∧
    (∀ (db : NewDatabase) (t id : String) (T : Table)
        (d nd : List (String × Value)),
      mapGet? db.Tables t = some T →
      (∀ r ∈ T.Rows, (mapGet? r.Columns "id").bind Value.asString? = none) →
      (GetRowByID db t id).2 = some .IDNotFound ∧
      UpdateRow db t id nd = (some .IDNotFound, db) ∧
      DeleteRow db t id = (some .IDNotFound, db) ∧
      (InsertRow db t id d).1 = none) := by
  refine ⟨rowMatchesID_eq_false_of_nonstring, ?_⟩
  intro db t id T d nd hT hNS
  have hFalse : ∀ r ∈ T.Rows, rowMatchesID r id = false :=
    fun r hr => rowMatchesID_eq_false_of_nonstring r id (hNS r hr)
  have hFind : T.Rows.find? (fun r => rowMatchesID r id) = none := by
    rw [List.find?_eq_none]
    intro r hr
    simp [hFalse r hr]
  have hAny : rowKeyExists T.Rows id = false :=
    any_eq_false_of_all _ _ hFalse
  refine ⟨?_, ?_, ?_, ?_⟩
  · simp [GetRowByID, hT, hFind]
  · simp [UpdateRow, hT, updateFirst_eq_none _ _ _ hFalse]
  · simp [DeleteRow, hT, deleteFirst_eq_none _ _ hFalse]
  · simp [InsertRow, hT, hAny]

/-- Claim C10, witness: the statement instantiated on the table whose
single row stores the integer 5 under "id" and on the id string "5",
which prints the same — the row stays invisible and the insert of "5"
succeeds. -/
theorem C10_witness :
    rowMatchesID { Columns := [("id", Value.int 5)] } "5" = false ∧
    ((GetRowByID nonStringIdDb "t" "5").2 = some .IDNotFound ∧
      UpdateRow nonStringIdDb "t" "5" [] = (some .IDNotFound, nonStringIdDb) ∧
      DeleteRow nonStringIdDb "t" "5" = (some .IDNotFound, nonStringIdDb) ∧
      (InsertRow nonStringIdDb "t" "5" []).1 = none) :=
  ⟨C10_confirmed.1 { Columns := [("id", Value.int 5)] } "5" (by decide),
   C10_confirmed.2 nonStringIdDb "t" "5" nonStringIdTable [] []
     (by decide) (by decide)⟩

end Engine
